import Mathlib

/-!
Verification development for the Attio synchronization script
(src/sync_l1s.py).  The script fetches chain records from the Glacier
chain directory, upserts one registry record per chain into an Attio
object keyed by the chain_id matching attribute, and links each upserted
record into a fixed Attio list unless a pre-fetched membership set
already contains the record id.

The embedding below follows the source closely:

* `ChainData` is one element of the fetched chain list; an `Option`
  field models an absent JSON key (`dict.get` defaulting).
* `values_to_upsert` is the field mapping of source lines 181-196,
  including the removal of keys whose value is None (line 196).
* `make_attio_request` is the retry loop `_make_attio_request`
  (lines 48-102), parameterized by what the remote end answers at each
  attempt; it reports the returned payload, the back-off sleeps
  performed, and the number of HTTP attempts made.
* `run_pipeline` is `upsert_record_and_add_to_list` (lines 172-277)
  parameterized by the response sequences of its two requests.
* `process_chain_srv`, `main_loop` and `main_srv` replay the same
  per-record logic against a deterministic model of the registry
  (create-or-update keyed by chain_id; the list-membership set), used
  for the whole-run idempotence claims.  The single `members` set
  models both the registry's list membership and the script's local
  pre-fetched mirror: on this happy-path server they change in
  lockstep (source lines 236 and 271).
-/

/-- One chain record as returned by the Glacier API.  `none` models an
absent key.  `chainId` stores the result of Python `str(...)` applied to
the raw value when the key is present. -/
structure ChainData where
  chainId : Option String
  chainName : Option String
  isTestnet : Option Bool
  isMainnet : Option Bool
  rpcUrl : Option String
  chainLogoUri : Option String
deriving DecidableEq

/-- Source line 186: `str(chain_data.get("chainId", ""))`. -/
def chain_id_str (c : ChainData) : String := c.chainId.getD ""

/-- Source line 182: `chain_data.get("isTestnet", False)`. -/
def is_testnet (c : ChainData) : Bool := c.isTestnet.getD false

/-- Source line 183: the display name with the optional testnet suffix. -/
def chain_display_name (c : ChainData) : String :=
  (c.chainName.getD "Unknown Chain") ++ (if is_testnet c then " (Testnet)" else "")

/-- Source line 189: `"Testnet" if is_testnet else "Mainnet"`. -/
def status_value (c : ChainData) : String :=
  if is_testnet c then "Testnet" else "Mainnet"

/-- The `values_to_upsert` dict of source lines 185-192, before the
None filter; a `none` second component is a key mapped to None. -/
def raw_values (c : ChainData) : List (String × Option String) :=
  [("chain_id", some (chain_id_str c)),
   ("name", some (chain_display_name c)),
   ("rpc", c.rpcUrl),
   ("status", some (status_value c)),
   ("logo_url", c.chainLogoUri)]

/-- Source line 196: keys whose value is None are removed before the
payload is sent. -/
def values_to_upsert (c : ChainData) : List (String × String) :=
  (raw_values c).filterMap (fun kv => kv.2.map (fun v => (kv.1, v)))

/-- Association-list lookup, first match wins (dict access). -/
def getVal : List (String × String) → String → Option String
  | [], _ => none
  | kv :: rest, k => if kv.1 = k then some kv.2 else getVal rest k

theorem values_chain_id (c : ChainData) :
    getVal (values_to_upsert c) "chain_id" = some (chain_id_str c) := rfl

/-- Derivation written from the spec sentence for comparison with the
code: if an explicit isMainnet boolean is present it is used directly
(true gives Mainnet, false gives Testnet); otherwise isTestnet is
consulted (true gives Testnet, else Mainnet). -/
def status_spec_precedence (c : ChainData) : String :=
  match c.isMainnet with
  | some b => if b then "Mainnet" else "Testnet"
  | none => if c.isTestnet.getD false then "Testnet" else "Mainnet"

/-- A chain carrying an explicit `isMainnet = false` and no isTestnet
key: the spec precedence rule and the code disagree on it. -/
def c3chain : ChainData :=
  ⟨some "42", some "Example", none, some false, none, none⟩

/-- Claim C3 (counterexample): on a record with isMainnet = false and no
isTestnet key the code emits status Mainnet while the claimed precedence
rule (isMainnet used directly, false gives Testnet) demands Testnet, so
the claim is false of the code. -/
theorem c3_precedence_counterexample :
    getVal (values_to_upsert c3chain) "status" = some "Mainnet"
    ∧ status_spec_precedence c3chain = "Testnet" := ⟨rfl, rfl⟩

/-- Claim C3 (amended): the status field is derived solely from the
isTestnet flag (true gives Testnet, otherwise Mainnet, defaulting to
Mainnet when the key is absent); the isMainnet flag is never consulted. -/
theorem c3_status_from_is_testnet_only (c : ChainData) :
    getVal (values_to_upsert c) "status"
      = some (if c.isTestnet.getD false then "Testnet" else "Mainnet")
    ∧ ∀ m : Option Bool,
        getVal (values_to_upsert { c with isMainnet := m }) "status"
          = getVal (values_to_upsert c) "status" := by
  rcases c with ⟨cid, nm, it, im, rpc, logo⟩
  exact ⟨by cases rpc <;> rfl, fun m => by cases rpc <;> rfl⟩

/-- Claim C8: a field whose mapped value is absent (None) is omitted
from the upsert payload rather than sent as null: the payload has a key
for rpc exactly when the source record has an rpcUrl, with the same
value, and likewise for logo_url. -/
theorem c8_null_field_omission (c : ChainData) :
    getVal (values_to_upsert c) "rpc" = c.rpcUrl
    ∧ getVal (values_to_upsert c) "logo_url" = c.chainLogoUri := by
  rcases c with ⟨cid, nm, it, im, rpc, logo⟩
  cases rpc <;> cases logo <;> exact ⟨rfl, rfl⟩

/-- Script constant, source line 22. -/
def MAX_RETRIES : Nat := 5

/-- Script constant, source line 23 (1.0 seconds). -/
def INITIAL_RETRY_DELAY : ℚ := 1

/-- The back-off delay computed at source lines 53, 74 and 96:
`INITIAL_RETRY_DELAY * (2 ** attempt)`. -/
def backoff (attempt : Nat) : ℚ := INITIAL_RETRY_DELAY * 2 ^ attempt

/-- What one attempt of `_make_attio_request` observes from the remote
end: either an HTTP response with a status and a parsed body, or an
exception (ClientError, TimeoutError, or any other exception,
source lines 79-93). -/
inductive ReqEvent (β : Type) where
  | http (status : Nat) (body : β)
  | exn
deriving DecidableEq

/-- The observable result of one `_make_attio_request` call: the value
returned (None on failure), the sleeps performed in order, and the
number of HTTP attempts made. -/
structure MarResult (β : Type) where
  result : Option β
  sleeps : List ℚ
  attempts : Nat
deriving DecidableEq

/-- The retry loop of `_make_attio_request` (source lines 48-102).
`resp n` is what the remote end answers at attempt index `n`; `fuel`
counts the remaining loop iterations (`MAX_RETRIES - attempt`).
A 429 sleeps `backoff attempt` and retries (lines 52-59); a 2xx returns
the body (line 77); any other status retries with the same back-off
unless this was the last attempt (lines 63-75); an exception retries
with the same back-off unless this was the last attempt
(lines 79-101); an exhausted loop returns None (line 102). -/
def mar_loop {β : Type} (resp : Nat → ReqEvent β) : Nat → Nat → MarResult β
  | _, 0 => ⟨none, [], 0⟩
  | attempt, fuel + 1 =>
    match resp attempt with
    | ReqEvent.exn =>
      if attempt < MAX_RETRIES - 1 then
        let r := mar_loop resp (attempt + 1) fuel
        ⟨r.result, backoff attempt :: r.sleeps, r.attempts + 1⟩
      else ⟨none, [], 1⟩
    | ReqEvent.http status body =>
      if status = 429 then
        let r := mar_loop resp (attempt + 1) fuel
        ⟨r.result, backoff attempt :: r.sleeps, r.attempts + 1⟩
      else if 200 ≤ status ∧ status < 300 then ⟨some body, [], 1⟩
      else if attempt = MAX_RETRIES - 1 then ⟨none, [], 1⟩
      else
        let r := mar_loop resp (attempt + 1) fuel
        ⟨r.result, backoff attempt :: r.sleeps, r.attempts + 1⟩

/-- One `_make_attio_request` call, starting at attempt 0 with
`MAX_RETRIES` iterations available. -/
def make_attio_request {β : Type} (resp : Nat → ReqEvent β) : MarResult β :=
  mar_loop resp 0 MAX_RETRIES

/-- A response sequence that answers 429 twice and then a 2xx success
is accepted at the third attempt after two back-off sleeps. -/
theorem mar_429_429_ok {β : Type} (resp : Nat → ReqEvent β) (b0 b1 body : β)
    (s : Nat) (h0 : resp 0 = ReqEvent.http 429 b0)
    (h1 : resp 1 = ReqEvent.http 429 b1) (h2 : resp 2 = ReqEvent.http s body)
    (hs2 : 200 ≤ s) (hs3 : s < 300) :
    make_attio_request resp = ⟨some body, [backoff 0, backoff 1], 3⟩ := by
  have h429 : ¬ s = 429 := by omega
  simp [make_attio_request, MAX_RETRIES, mar_loop, h0, h1, h2, h429, hs2, hs3]

/-- A response sequence that answers 429 at every attempt exhausts all
five attempts, sleeping after each one, and returns None. -/
theorem mar_all_429 {β : Type} (resp : Nat → ReqEvent β) (bb : Nat → β)
    (h : ∀ n, resp n = ReqEvent.http 429 (bb n)) :
    make_attio_request resp
      = ⟨none, [backoff 0, backoff 1, backoff 2, backoff 3, backoff 4], 5⟩ := by
  simp [make_attio_request, MAX_RETRIES, mar_loop, h]

/-- A response sequence that answers the same non-429 error status at
every attempt is retried with back-off and fails after five attempts;
the last attempt does not sleep (source lines 71-75). -/
theorem mar_all_err {β : Type} (resp : Nat → ReqEvent β) (bb : Nat → β)
    (st : Nat) (hst1 : ¬ st = 429) (hst2 : ¬ (200 ≤ st ∧ st < 300))
    (h : ∀ n, resp n = ReqEvent.http st (bb n)) :
    make_attio_request resp
      = ⟨none, [backoff 0, backoff 1, backoff 2, backoff 3], 5⟩ := by
  simp [make_attio_request, MAX_RETRIES, mar_loop, h, hst1, hst2]

/-- The parsed JSON body of an upsert response, as far as the script
inspects it (source lines 219-231): whether the whole response dict is
truthy, whether it has a "data" key, and the value of
data.id.record_id when data.id is a dict carrying that key. -/
structure UpsertBody where
  truthy : Bool
  hasData : Bool
  record_id : Option String
deriving DecidableEq

/-- The identifier extraction of source lines 219-231: the record is
usable only when the response is truthy, carries "data", and
data.id.record_id is a non-empty string (a falsy record_id fails the
`if not parent_record_id` check at line 229). -/
def extract_record_id (b : UpsertBody) : Option String :=
  if b.truthy && b.hasData then
    match b.record_id with
    | some rid => if rid = "" then none else some rid
    | none => none
  else none

/-- Classification of one record's trip through
`upsert_record_and_add_to_list`, read off the logging branches of the
source: skipped for a missing chain_id (line 199), upsert failure
(lines 220, 230), already in the pre-fetched list (line 237),
successfully added to the list (line 270), or list-add failure
(line 277). -/
inductive Outcome where
  | SkippedNoKey
  | UpsertFailed
  | AlreadyInList
  | Linked
  | LinkFailed
deriving DecidableEq

/-- Everything observable about one `upsert_record_and_add_to_list`
call: its outcome, the membership set afterwards, how many upsert and
list-add operations it issued, and how many HTTP attempts each of those
operations made. -/
structure PipelineResult where
  outcome : Outcome
  members : List String
  upsertCalls : Nat
  linkCalls : Nat
  upsertAttempts : Nat
  linkAttempts : Nat
deriving DecidableEq

/-- `upsert_record_and_add_to_list` (source lines 172-277),
parameterized by the response sequences of the upsert PUT (`uR`) and
the list-entry POST (`lR`), and by the pre-fetched membership set
`ms`.  A missing chain_id skips the record (lines 198-200); a failed or
malformed upsert response stops before any list work (lines 219-231);
a record id already in `ms` skips the list add (lines 235-238);
otherwise the POST is issued and a truthy response adds the id to the
local set (lines 260-271), while a falsy or absent one is logged as a
failure (line 277). -/
def run_pipeline (c : ChainData) (uR : Nat → ReqEvent UpsertBody)
    (lR : Nat → ReqEvent Bool) (ms : List String) : PipelineResult :=
  if chain_id_str c = "" then ⟨Outcome.SkippedNoKey, ms, 0, 0, 0, 0⟩
  else
    match (make_attio_request uR).result with
    | none =>
      ⟨Outcome.UpsertFailed, ms, 1, 0, (make_attio_request uR).attempts, 0⟩
    | some b =>
      match extract_record_id b with
      | none =>
        ⟨Outcome.UpsertFailed, ms, 1, 0, (make_attio_request uR).attempts, 0⟩
      | some rid =>
        if rid ∈ ms then
          ⟨Outcome.AlreadyInList, ms, 1, 0, (make_attio_request uR).attempts, 0⟩
        else
          match (make_attio_request lR).result with
          | some tb =>
            if tb then
              ⟨Outcome.Linked, ms ++ [rid], 1, 1,
               (make_attio_request uR).attempts, (make_attio_request lR).attempts⟩
            else
              ⟨Outcome.LinkFailed, ms, 1, 1,
               (make_attio_request uR).attempts, (make_attio_request lR).attempts⟩
          | none =>
            ⟨Outcome.LinkFailed, ms, 1, 1,
             (make_attio_request uR).attempts, (make_attio_request lR).attempts⟩

/-- The record identifier the upsert step of the pipeline produces, if
any: the record must have a chain_id, the upsert request must return a
payload, and the payload must carry a usable record_id. -/
def upsertedRid (c : ChainData) (uR : Nat → ReqEvent UpsertBody) : Option String :=
  if chain_id_str c = "" then none
  else
    match (make_attio_request uR).result with
    | none => none
    | some b => extract_record_id b

theorem upsertedRid_elim (c : ChainData) (uR : Nat → ReqEvent UpsertBody)
    (rid : String) (h : upsertedRid c uR = some rid) :
    ¬ chain_id_str c = ""
    ∧ ∃ b, (make_attio_request uR).result = some b
         ∧ extract_record_id b = some rid := by
  by_cases hk : chain_id_str c = ""
  · simp [upsertedRid, hk] at h
  · cases hres : (make_attio_request uR).result with
    | none => simp [upsertedRid, hk, hres] at h
    | some b =>
      exact ⟨hk, b, rfl, by simpa [upsertedRid, hk, hres] using h⟩

/-- A pipeline whose upserted record id is already in the membership
set issues no list-entry creation call and leaves the set unchanged
(source lines 235-238). -/
theorem pipeline_skip_of_member (c : ChainData) (uR : Nat → ReqEvent UpsertBody)
    (lR : Nat → ReqEvent Bool) (ms : List String) (rid : String)
    (hrid : upsertedRid c uR = some rid) (hm : rid ∈ ms) :
    run_pipeline c uR lR ms
      = ⟨Outcome.AlreadyInList, ms, 1, 0, (make_attio_request uR).attempts, 0⟩ := by
  obtain ⟨hk, b, hres, hext⟩ := upsertedRid_elim c uR rid hrid
  simp [run_pipeline, hk, hres, hext, hm]

/-- Once the upsert step has produced a record id, the pipeline ends in
one of the three post-upsert outcomes. -/
theorem pipeline_upsert_ok_outcome (c : ChainData) (uR : Nat → ReqEvent UpsertBody)
    (lR : Nat → ReqEvent Bool) (ms : List String) (rid : String)
    (hrid : upsertedRid c uR = some rid) :
    (run_pipeline c uR lR ms).outcome = Outcome.AlreadyInList
    ∨ (run_pipeline c uR lR ms).outcome = Outcome.Linked
    ∨ (run_pipeline c uR lR ms).outcome = Outcome.LinkFailed := by
  obtain ⟨hk, b, hres, hext⟩ := upsertedRid_elim c uR rid hrid
  by_cases hm : rid ∈ ms
  · simp [run_pipeline, hk, hres, hext, hm]
  · cases hlr : (make_attio_request lR).result with
    | none => simp [run_pipeline, hk, hres, hext, hm, hlr]
    | some tb => cases tb <;> simp [run_pipeline, hk, hres, hext, hm, hlr]

/-- A pipeline that reaches the Linked outcome has appended exactly its
record id to the membership set (source line 271). -/
theorem pipeline_linked_members (c : ChainData) (uR : Nat → ReqEvent UpsertBody)
    (lR : Nat → ReqEvent Bool) (ms : List String) (rid : String)
    (hrid : upsertedRid c uR = some rid)
    (hL : (run_pipeline c uR lR ms).outcome = Outcome.Linked) :
    (run_pipeline c uR lR ms).members = ms ++ [rid] := by
  obtain ⟨hk, b, hres, hext⟩ := upsertedRid_elim c uR rid hrid
  by_cases hm : rid ∈ ms
  · simp [run_pipeline, hk, hres, hext, hm] at hL
  · cases hlr : (make_attio_request lR).result with
    | none => simp [run_pipeline, hk, hres, hext, hm, hlr] at hL
    | some tb =>
      cases tb
      · simp [run_pipeline, hk, hres, hext, hm, hlr] at hL
      · simp [run_pipeline, hk, hres, hext, hm, hlr]

/-- Canonical concrete inputs used by the witnesses and counterexamples
below. -/
def okBody : UpsertBody := ⟨true, true, some "rid-1"⟩

def badBody : UpsertBody := ⟨true, true, none⟩

def wChain : ChainData := ⟨some "1", some "Chain One", none, none, none, none⟩

def u200ok : Nat → ReqEvent UpsertBody := fun _ => ReqEvent.http 200 okBody

def u200bad : Nat → ReqEvent UpsertBody := fun _ => ReqEvent.http 200 badBody

def u400 : Nat → ReqEvent UpsertBody := fun _ => ReqEvent.http 400 badBody

def u429seq : Nat → ReqEvent UpsertBody := fun n =>
  match n with
  | 0 => ReqEvent.http 429 badBody
  | 1 => ReqEvent.http 429 badBody
  | _ => ReqEvent.http 200 okBody

def l200 : Nat → ReqEvent Bool := fun _ => ReqEvent.http 200 true

def l409 : Nat → ReqEvent Bool := fun _ => ReqEvent.http 409 true

/-- Claim C2 (counterexample): a list-link attempt answered with
HTTP 409 at every try ends in outcome LinkFailed, not Linked: the
script's `_make_attio_request` treats 409 like any other non-2xx error,
so after the retries are exhausted the add is logged as a failure
(source lines 272-277). -/
theorem c2_conflict_counterexample :
    (run_pipeline wChain u200ok l409 []).outcome = Outcome.LinkFailed
    ∧ ¬ (run_pipeline wChain u200ok l409 []).outcome = Outcome.Linked := by
  decide

/-- Claim C2 (amended): a list-link call whose every attempt is
answered 409 (already a member) is retried like any other error status
and, after the five attempts are exhausted, the link step is treated as
a failure: outcome LinkFailed, membership set unchanged. -/
theorem c2_conflict_retried_then_failed (c : ChainData)
    (uR : Nat → ReqEvent UpsertBody) (lR : Nat → ReqEvent Bool)
    (ms : List String) (rid : String) (bs : Nat → Bool)
    (hrid : upsertedRid c uR = some rid) (hnm : rid ∉ ms)
    (h409 : ∀ n, lR n = ReqEvent.http 409 (bs n)) :
    run_pipeline c uR lR ms
      = ⟨Outcome.LinkFailed, ms, 1, 1, (make_attio_request uR).attempts, 5⟩ := by
  obtain ⟨hk, b, hres, hext⟩ := upsertedRid_elim c uR rid hrid
  have hmar := mar_all_err lR bs 409 (by decide) (by decide) h409
  simp [run_pipeline, hk, hres, hext, hnm, hmar]

theorem c2_amended_witness :
    run_pipeline wChain u200ok l409 []
      = ⟨Outcome.LinkFailed, [], 1, 1, 1, 5⟩ :=
  c2_conflict_retried_then_failed wChain u200ok l409 [] "rid-1" (fun _ => true)
    rfl (by decide) (fun _ => rfl)

/-- Claim C4 (counterexample): when the registry answers the upsert
with a 400 conflict (the "multiple matches" signal) at every attempt,
the script performs no duplicate reconciliation and no single
post-reconcile retry: the one upsert operation is retried five times by
the generic back-off loop and the record simply fails; no query or
delete request exists anywhere in the pipeline. -/
theorem c4_no_reconciler_counterexample :
    run_pipeline wChain u400 l200 [] = ⟨Outcome.UpsertFailed, [], 1, 0, 5, 0⟩
    ∧ (run_pipeline wChain u400 l200 []).upsertAttempts = 5
    ∧ (run_pipeline wChain u400 l200 []).upsertCalls = 1 := by
  decide

/-- Claim C4 (amended): a 400 "multiple matches" conflict on the upsert
is handled by the generic retry loop alone: the single upsert operation
makes five HTTP attempts with exponential back-off and then the record
is treated as UpsertFailed; no reconciliation, retry-once, query or
delete step is invoked and no list work happens. -/
theorem c4_multimatch_generic_retry (c : ChainData)
    (uR : Nat → ReqEvent UpsertBody) (lR : Nat → ReqEvent Bool)
    (ms : List String) (bs : Nat → UpsertBody)
    (hk : ¬ chain_id_str c = "")
    (h400 : ∀ n, uR n = ReqEvent.http 400 (bs n)) :
    run_pipeline c uR lR ms = ⟨Outcome.UpsertFailed, ms, 1, 0, 5, 0⟩ := by
  have hmar := mar_all_err uR bs 400 (by decide) (by decide) h400
  simp [run_pipeline, hk, hmar]

theorem c4_amended_witness :
    run_pipeline wChain u400 l200 ["x"]
      = ⟨Outcome.UpsertFailed, ["x"], 1, 0, 5, 0⟩ :=
  c4_multimatch_generic_retry wChain u400 l200 ["x"] (fun _ => badBody)
    (by decide) (fun _ => rfl)

/-- Claim C5: a 429 response is never accepted as a final result while
attempts remain: with MAX_RETRIES = 5, the sequence 429, 429, 2xx is
accepted at the third attempt after exactly two sleeps of strictly
increasing duration (1s then 2s, the doubling back-off) and the upsert
succeeds, while five consecutive 429 responses exhaust the attempts and
the record ends as UpsertFailed. -/
theorem c5_rate_limit_backoff (c : ChainData) (uR : Nat → ReqEvent UpsertBody)
    (lR : Nat → ReqEvent Bool) (ms : List String)
    (b0 b1 body : UpsertBody) (s : Nat)
    (hk : ¬ chain_id_str c = "")
    (h0 : uR 0 = ReqEvent.http 429 b0) (h1 : uR 1 = ReqEvent.http 429 b1)
    (h2 : uR 2 = ReqEvent.http s body) (hs2 : 200 ≤ s) (hs3 : s < 300) :
    MAX_RETRIES = 5
    ∧ make_attio_request uR = ⟨some body, [1, 2], 3⟩
    ∧ (1 : ℚ) < 2
    ∧ (∀ rid, extract_record_id body = some rid →
        upsertedRid c uR = some rid
        ∧ ¬ (run_pipeline c uR lR ms).outcome = Outcome.UpsertFailed
        ∧ ¬ (run_pipeline c uR lR ms).outcome = Outcome.SkippedNoKey)
    ∧ (∀ (vR : Nat → ReqEvent UpsertBody) (bb : Nat → UpsertBody),
        (∀ n, vR n = ReqEvent.http 429 (bb n)) →
        make_attio_request vR = ⟨none, [1, 2, 4, 8, 16], 5⟩
        ∧ (run_pipeline c vR lR ms).outcome = Outcome.UpsertFailed) := by
  have hmar := mar_429_429_ok uR b0 b1 body s h0 h1 h2 hs2 hs3
  have hb0 : backoff 0 = 1 := by norm_num [backoff, INITIAL_RETRY_DELAY]
  have hb1 : backoff 1 = 2 := by norm_num [backoff, INITIAL_RETRY_DELAY]
  have hb2 : backoff 2 = 4 := by norm_num [backoff, INITIAL_RETRY_DELAY]
  have hb3 : backoff 3 = 8 := by norm_num [backoff, INITIAL_RETRY_DELAY]
  have hb4 : backoff 4 = 16 := by norm_num [backoff, INITIAL_RETRY_DELAY]
  refine ⟨rfl, by rw [hmar, hb0, hb1], by norm_num, ?_, ?_⟩
  · intro rid hext
    have hres : (make_attio_request uR).result = some body := by rw [hmar]
    have hrid : upsertedRid c uR = some rid := by
      simp [upsertedRid, hk, hres, hext]
    refine ⟨hrid, ?_, ?_⟩ <;>
      rcases pipeline_upsert_ok_outcome c uR lR ms rid hrid with h | h | h <;>
        simp [h]
  · intro vR bb hall
    have hmv := mar_all_429 vR bb hall
    constructor
    · rw [hmv, hb0, hb1, hb2, hb3, hb4]
    · have hres : (make_attio_request vR).result = none := by rw [hmv]
      simp [run_pipeline, hk, hres]

theorem c5_witness :
    make_attio_request u429seq = ⟨some okBody, [1, 2], 3⟩ ∧ (1 : ℚ) < 2 :=
  ⟨(c5_rate_limit_backoff wChain u429seq l200 [] badBody badBody okBody 200
      (by decide) rfl rfl rfl (by decide) (by decide)).2.1,
   (c5_rate_limit_backoff wChain u429seq l200 [] badBody badBody okBody 200
      (by decide) rfl rfl rfl (by decide) (by decide)).2.2.1⟩

/-- Claim C6: an upsert whose response carries no usable record
identifier is treated as a failed upsert with no retry of the operation
and no list-link attempt: one upsert call, zero link calls, membership
set untouched. -/
theorem c6_malformed_upsert_response (c : ChainData)
    (uR : Nat → ReqEvent UpsertBody) (lR : Nat → ReqEvent Bool)
    (ms : List String) (b : UpsertBody)
    (hk : ¬ chain_id_str c = "")
    (hres : (make_attio_request uR).result = some b)
    (hbad : extract_record_id b = none) :
    run_pipeline c uR lR ms
      = ⟨Outcome.UpsertFailed, ms, 1, 0, (make_attio_request uR).attempts, 0⟩ := by
  simp [run_pipeline, hk, hres, hbad]

theorem c6_witness :
    run_pipeline wChain u200bad l200 []
      = ⟨Outcome.UpsertFailed, [], 1, 0, 1, 0⟩ :=
  c6_malformed_upsert_response wChain u200bad l200 [] badBody
    (by decide) rfl rfl

/-- Claim C10: the membership set is consulted before the list-entry
creation call and updated after a successful one: a pipeline whose
record id is already in the set issues no creation call and leaves the
set unchanged; a pipeline that Linked has put its id into the set; and
any later pipeline run on the updated set that upserts to the same id
issues no second creation call. -/
theorem c10_membership_frame (c : ChainData) (uR : Nat → ReqEvent UpsertBody)
    (lR : Nat → ReqEvent Bool) (ms : List String) (rid : String)
    (hrid : upsertedRid c uR = some rid) :
    (rid ∈ ms →
       (run_pipeline c uR lR ms).linkCalls = 0
       ∧ (run_pipeline c uR lR ms).members = ms)
    ∧ ((run_pipeline c uR lR ms).outcome = Outcome.Linked →
        rid ∈ (run_pipeline c uR lR ms).members)
    ∧ (∀ (c2 : ChainData) (uR2 : Nat → ReqEvent UpsertBody)
         (lR2 : Nat → ReqEvent Bool),
        upsertedRid c2 uR2 = some rid →
        (run_pipeline c uR lR ms).outcome = Outcome.Linked →
        (run_pipeline c2 uR2 lR2 (run_pipeline c uR lR ms).members).linkCalls = 0
        ∧ (run_pipeline c2 uR2 lR2 (run_pipeline c uR lR ms).members).members
            = (run_pipeline c uR lR ms).members) := by
  refine ⟨?_, ?_, ?_⟩
  · intro hm
    rw [pipeline_skip_of_member c uR lR ms rid hrid hm]
    exact ⟨rfl, rfl⟩
  · intro hL
    rw [pipeline_linked_members c uR lR ms rid hrid hL]
    simp
  · intro c2 uR2 lR2 hrid2 hL
    have hmem : rid ∈ (run_pipeline c uR lR ms).members := by
      rw [pipeline_linked_members c uR lR ms rid hrid hL]
      simp
    rw [pipeline_skip_of_member c2 uR2 lR2 _ rid hrid2 hmem]
    exact ⟨rfl, rfl⟩

theorem c10_witness :
    (run_pipeline wChain u200ok l200 ["rid-1"]).linkCalls = 0
    ∧ (run_pipeline wChain u200ok l200 ["rid-1"]).members = ["rid-1"] :=
  (c10_membership_frame wChain u200ok l200 ["rid-1"] "rid-1" rfl).1 (by decide)

/-- One registry record: its durable record id and its current field
values.  Modelled from the registry contract the script relies on
(PUT create-or-update by the chain_id matching attribute,
spec section 6). -/
structure RecEntry where
  record_id : String
  values : List (String × String)
deriving DecidableEq

/-- The registry state the run mutates: records keyed by their
chain_id matching-attribute value, the set of record ids linked into
the target list, and a counter for fresh record ids.  The single
`members` list stands for both the registry's list membership and the
script's pre-fetched local mirror: on this always-successful server
they change in lockstep (source lines 236 and 271). -/
structure Registry where
  records : List (String × RecEntry)
  members : List String
  nextId : Nat
deriving DecidableEq

/-- First record whose chain_id key equals `cid`. -/
def findRec : List (String × RecEntry) → String → Option RecEntry
  | [], _ => none
  | ke :: rest, cid => if ke.1 = cid then some ke.2 else findRec rest cid

/-- Overwrite the field values of the first record keyed `cid`, keeping
its record id (the update half of create-or-update). -/
def updateVals : List (String × RecEntry) → String → List (String × String) →
    List (String × RecEntry)
  | [], _, _ => []
  | ke :: rest, cid, vs =>
    if ke.1 = cid then (ke.1, ⟨ke.2.record_id, vs⟩) :: rest
    else ke :: updateVals rest cid vs

/-- Counters for one run against the registry model: upsert operations
issued, list-entry creation calls issued, upserts whose written values
differed from the stored ones, records created, and records skipped for
a missing chain_id. -/
structure RunStats where
  upsertCalls : Nat
  linkCalls : Nat
  changedWrites : Nat
  created : Nat
  skipped : Nat
deriving DecidableEq

def addStats (a b : RunStats) : RunStats :=
  ⟨a.upsertCalls + b.upsertCalls, a.linkCalls + b.linkCalls,
   a.changedWrites + b.changedWrites, a.created + b.created,
   a.skipped + b.skipped⟩

/-- One record's trip through `upsert_record_and_add_to_list` against
the registry model on the happy path: skip on missing chain_id
(source lines 198-200); otherwise create-or-update by the chain_id
matching attribute (lines 202-217); then link into the list unless the
record id is already a member (lines 235-271). -/
def process_chain_srv (r : Registry) (c : ChainData) : Registry × RunStats :=
  if chain_id_str c = "" then (r, ⟨0, 0, 0, 0, 1⟩)
  else
    match findRec r.records (chain_id_str c) with
    | some e =>
      let vs := values_to_upsert c
      let changed : Nat := if e.values = vs then 0 else 1
      let recs := updateVals r.records (chain_id_str c) vs
      if e.record_id ∈ r.members then
        (⟨recs, r.members, r.nextId⟩, ⟨1, 0, changed, 0, 0⟩)
      else
        (⟨recs, r.members ++ [e.record_id], r.nextId⟩, ⟨1, 1, changed, 0, 0⟩)
    | none =>
      let vs := values_to_upsert c
      let rid := "rec-" ++ toString r.nextId
      let recs := r.records ++ [(chain_id_str c, ⟨rid, vs⟩)]
      if rid ∈ r.members then
        (⟨recs, r.members, r.nextId + 1⟩, ⟨1, 0, 0, 1, 0⟩)
      else
        (⟨recs, r.members ++ [rid], r.nextId + 1⟩, ⟨1, 1, 0, 1, 0⟩)

/-- The per-record loop of `main` (source lines 300-304) over the
fetched chain list, with run statistics accumulated. -/
def main_loop : Registry → List ChainData → Registry × RunStats
  | r, [] => (r, ⟨0, 0, 0, 0, 0⟩)
  | r, c :: cs =>
    let p := process_chain_srv r c
    let q := main_loop p.1 cs
    (q.1, addStats p.2 q.2)

/-- The chain_id values of the records that can produce a natural
key. -/
def keyedCids (cs : List ChainData) : List String :=
  cs.filterMap (fun c => if chain_id_str c = "" then none else some (chain_id_str c))

def hasKey (c : ChainData) : Bool := chain_id_str c ≠ ""

def countKeyed (cs : List ChainData) : Nat := (cs.filter hasKey).length

def countSkipped (cs : List ChainData) : Nat :=
  (cs.filter (fun c => ! hasKey c)).length

theorem findRec_append_some (l l2 : List (String × RecEntry)) (k : String)
    (e : RecEntry) (h : findRec l k = some e) :
    findRec (l ++ l2) k = some e := by
  induction l with
  | nil => simp [findRec] at h
  | cons hd tl ih =>
    by_cases hk : hd.1 = k
    · simpa [findRec, hk] using h
    · rw [List.cons_append, findRec, if_neg hk]
      exact ih (by simpa [findRec, hk] using h)

theorem findRec_append_new (l : List (String × RecEntry)) (k : String)
    (e : RecEntry) (h : findRec l k = none) :
    findRec (l ++ [(k, e)]) k = some e := by
  induction l with
  | nil => simp [findRec]
  | cons hd tl ih =>
    by_cases hk : hd.1 = k
    · simp [findRec, hk] at h
    · rw [List.cons_append, findRec, if_neg hk]
      exact ih (by simpa [findRec, hk] using h)

theorem findRec_updateVals_ne (l : List (String × RecEntry)) (cid k : String)
    (vs : List (String × String)) (h : ¬ k = cid) :
    findRec (updateVals l cid vs) k = findRec l k := by
  induction l with
  | nil => rfl
  | cons hd tl ih =>
    by_cases hc : hd.1 = cid
    · have hck : ¬ cid = k := fun hh => h hh.symm
      simp [updateVals, findRec, hc, hck]
    · simp only [updateVals, if_neg hc, findRec]
      by_cases hk : hd.1 = k
      · simp [hk]
      · simp [hk, ih]

theorem findRec_updateVals_self (l : List (String × RecEntry)) (cid : String)
    (vs : List (String × String)) (e : RecEntry)
    (h : findRec l cid = some e) :
    findRec (updateVals l cid vs) cid = some ⟨e.record_id, vs⟩ := by
  induction l with
  | nil => simp [findRec] at h
  | cons hd tl ih =>
    by_cases hc : hd.1 = cid
    · have he : hd.2 = e := by simpa [findRec, hc] using h
      simp [updateVals, findRec, hc, he]
    · simp only [updateVals, if_neg hc, findRec, hc, if_false]
      exact ih (by simpa [findRec, hc] using h)

theorem updateVals_id (l : List (String × RecEntry)) (cid : String)
    (e : RecEntry) (h : findRec l cid = some e) :
    updateVals l cid e.values = l := by
  induction l with
  | nil => rfl
  | cons hd tl ih =>
    by_cases hc : hd.1 = cid
    · have he : hd.2 = e := by simpa [findRec, hc] using h
      subst he
      simp only [updateVals, if_pos hc]
    · simp only [updateVals, if_neg hc, List.cons.injEq, true_and]
      exact ih (by simpa [findRec, hc] using h)

theorem process_preserves_record (r : Registry) (c : ChainData) (k : String)
    (e : RecEntry) (hne : ¬ chain_id_str c = "" → ¬ chain_id_str c = k)
    (h : findRec r.records k = some e) :
    findRec (process_chain_srv r c).1.records k = some e := by
  by_cases hk : chain_id_str c = ""
  · simpa [process_chain_srv, hk] using h
  · have hck : ¬ k = chain_id_str c := fun hh => (hne hk) hh.symm
    cases hf : findRec r.records (chain_id_str c) with
    | some e2 =>
      by_cases hm : e2.record_id ∈ r.members <;>
        simp [process_chain_srv, hk, hf, hm, findRec_updateVals_ne _ _ _ _ hck, h]
    | none =>
      by_cases hm : ("rec-" ++ toString r.nextId) ∈ r.members <;>
        simp [process_chain_srv, hk, hf, hm, findRec_append_some _ _ _ _ h]

theorem process_preserves_member (r : Registry) (c : ChainData) (x : String)
    (h : x ∈ r.members) : x ∈ (process_chain_srv r c).1.members := by
  by_cases hk : chain_id_str c = ""
  · simpa [process_chain_srv, hk] using h
  · cases hf : findRec r.records (chain_id_str c) with
    | some e2 =>
      by_cases hm : e2.record_id ∈ r.members <;>
        simp [process_chain_srv, hk, hf, hm, h, List.mem_append]
    | none =>
      by_cases hm : ("rec-" ++ toString r.nextId) ∈ r.members <;>
        simp [process_chain_srv, hk, hf, hm, h, List.mem_append]

theorem loop_preserves_record (cs : List ChainData) (r : Registry) (k : String)
    (e : RecEntry)
    (hcs : ∀ c ∈ cs, ¬ chain_id_str c = "" → ¬ chain_id_str c = k)
    (h : findRec r.records k = some e) :
    findRec (main_loop r cs).1.records k = some e := by
  induction cs generalizing r with
  | nil => simpa [main_loop] using h
  | cons c cs ih =>
    simp only [main_loop]
    exact ih (process_chain_srv r c).1
      (fun c2 h2 => hcs c2 (List.mem_cons_of_mem c h2))
      (process_preserves_record r c k e (hcs c (List.mem_cons_self c cs)) h)

theorem loop_preserves_member (cs : List ChainData) (r : Registry) (x : String)
    (h : x ∈ r.members) : x ∈ (main_loop r cs).1.members := by
  induction cs generalizing r with
  | nil => simpa [main_loop] using h
  | cons c cs ih =>
    simp only [main_loop]
    exact ih (process_chain_srv r c).1 (process_preserves_member r c x h)

theorem process_establishes (r : Registry) (c : ChainData)
    (hk : ¬ chain_id_str c = "") :
    ∃ rid, findRec (process_chain_srv r c).1.records (chain_id_str c)
             = some ⟨rid, values_to_upsert c⟩
         ∧ rid ∈ (process_chain_srv r c).1.members := by
  cases hf : findRec r.records (chain_id_str c) with
  | some e =>
    refine ⟨e.record_id, ?_⟩
    by_cases hm : e.record_id ∈ r.members <;>
      simp [process_chain_srv, hk, hf, hm,
        findRec_updateVals_self _ _ _ _ hf, List.mem_append]
  | none =>
    refine ⟨"rec-" ++ toString r.nextId, ?_⟩
    by_cases hm : ("rec-" ++ toString r.nextId) ∈ r.members <;>
      simp [process_chain_srv, hk, hf, hm,
        findRec_append_new _ _ _ hf, List.mem_append]

theorem mem_keyedCids (c : ChainData) (cs : List ChainData) (h1 : c ∈ cs)
    (h2 : ¬ chain_id_str c = "") : chain_id_str c ∈ keyedCids cs :=
  List.mem_filterMap.mpr ⟨c, h1, by simp [h2]⟩

theorem keyedCids_cons_keyed (c : ChainData) (cs : List ChainData)
    (h : ¬ chain_id_str c = "") :
    keyedCids (c :: cs) = chain_id_str c :: keyedCids cs := by
  simp [keyedCids, List.filterMap_cons, h]

theorem keyedCids_cons_unkeyed (c : ChainData) (cs : List ChainData)
    (h : chain_id_str c = "") : keyedCids (c :: cs) = keyedCids cs := by
  simp [keyedCids, List.filterMap_cons, h]

theorem keyedCids_nodup_tail (c : ChainData) (cs : List ChainData)
    (h : (keyedCids (c :: cs)).Nodup) : (keyedCids cs).Nodup := by
  by_cases hk : chain_id_str c = ""
  · rwa [keyedCids_cons_unkeyed c cs hk] at h
  · rw [keyedCids_cons_keyed c cs hk] at h
    exact (List.nodup_cons.mp h).2

/-- After one run, every keyed chain has a registry record carrying
exactly its mapped values, and that record's id is in the list
membership set. -/
theorem loop_establishes (cs : List ChainData) (r : Registry) (c0 : ChainData)
    (h0 : c0 ∈ cs) (hk : ¬ chain_id_str c0 = "")
    (hnd : (keyedCids cs).Nodup) :
    ∃ rid, findRec (main_loop r cs).1.records (chain_id_str c0)
             = some ⟨rid, values_to_upsert c0⟩
         ∧ rid ∈ (main_loop r cs).1.members := by
  induction cs generalizing r with
  | nil => cases h0
  | cons c cs ih =>
    rcases List.mem_cons.mp h0 with h0 | h0
    · subst h0
      obtain ⟨rid, hfind, hmemb⟩ := process_establishes r c0 hk
      have hni : chain_id_str c0 ∉ keyedCids cs := by
        rw [keyedCids_cons_keyed c0 cs hk] at hnd
        exact (List.nodup_cons.mp hnd).1
      refine ⟨rid, ?_, ?_⟩
      · simp only [main_loop]
        exact loop_preserves_record cs _ _ _
          (fun c2 h2 hk2 hc2 => hni (hc2 ▸ mem_keyedCids c2 cs h2 hk2))
          hfind
      · simp only [main_loop]
        exact loop_preserves_member cs _ _ hmemb
    · simp only [main_loop]
      exact ih (process_chain_srv r c).1 h0 (keyedCids_nodup_tail c cs hnd)

/-- A run over a registry that is already synced for every keyed chain
(record present with exactly the mapped values, id already a member)
changes nothing: one upsert per keyed record writing identical values,
zero creations, zero changed writes, zero list-entry creations. -/
theorem loop_replay (cs : List ChainData) (r : Registry)
    (hinv : ∀ c ∈ cs, ¬ chain_id_str c = "" →
        ∃ rid, findRec r.records (chain_id_str c)
                 = some ⟨rid, values_to_upsert c⟩
             ∧ rid ∈ r.members) :
    main_loop r cs = (r, ⟨countKeyed cs, 0, 0, 0, countSkipped cs⟩) := by
  induction cs with
  | nil => simp [main_loop, countKeyed, countSkipped]
  | cons c cs ih =>
    have ihr := ih (fun c2 h2 => hinv c2 (List.mem_cons_of_mem c h2))
    by_cases hk : chain_id_str c = ""
    · have hstep : process_chain_srv r c = (r, ⟨0, 0, 0, 0, 1⟩) := by
        simp [process_chain_srv, hk]
      have hcnt : hasKey c = false := by simp [hasKey, hk]
      simp [main_loop, hstep, ihr, addStats, countKeyed, countSkipped,
        List.filter_cons, hcnt, Nat.add_comm]
    · obtain ⟨rid, hfind, hmem⟩ := hinv c (List.mem_cons_self c cs) hk
      have hupd : updateVals r.records (chain_id_str c) (values_to_upsert c)
          = r.records :=
        updateVals_id r.records (chain_id_str c) ⟨rid, values_to_upsert c⟩ hfind
      have hstep : process_chain_srv r c = (r, ⟨1, 0, 0, 0, 0⟩) := by
        simp [process_chain_srv, hk, hfind, hupd, hmem]
      have hcnt : hasKey c = true := by simp [hasKey, hk]
      simp [main_loop, hstep, ihr, addStats, countKeyed, countSkipped,
        List.filter_cons, hcnt, Nat.add_comm]

/-- Claim C1: with the source snapshot unchanged (and chain ids
pairwise distinct, as the spec assumes of the source), running the
whole per-record loop a second time performs zero net registry
mutations: the registry state is returned unchanged, every upsert
writes the values already stored (zero changed writes, zero creations),
and zero list-entry creation calls are issued because every record id
is already in the pre-fetched membership set. -/
theorem c1_second_run_identity (r : Registry) (cs : List ChainData)
    (hnd : (keyedCids cs).Nodup) :
    main_loop (main_loop r cs).1 cs
      = ((main_loop r cs).1, ⟨countKeyed cs, 0, 0, 0, countSkipped cs⟩) :=
  loop_replay cs (main_loop r cs).1
    (fun c hc hk => loop_establishes cs r c hc hk hnd)

def wRegistry : Registry := ⟨[], [], 0⟩

def wChains : List ChainData :=
  [⟨some "1", some "Chain One", none, none, some "https://one.example/rpc", none⟩,
   ⟨some "2", some "Chain Two", some true, none, none, some "https://two.example/logo.png"⟩,
   ⟨none, some "No Key Chain", none, none, none, none⟩]

theorem c1_witness :
    (keyedCids wChains).Nodup
    ∧ main_loop (main_loop wRegistry wChains).1 wChains
        = ((main_loop wRegistry wChains).1,
           ⟨countKeyed wChains, 0, 0, 0, countSkipped wChains⟩) :=
  ⟨by decide, c1_second_run_identity wRegistry wChains (by decide)⟩

/-- Claim C7: a chain record with no derivable chain_id is skipped: the
pipeline issues no upsert and no list-link request and leaves the
membership set alone, and at the run level the skipped record
contributes only a skip count while the rest of the list is processed
exactly as it would be without it. -/
theorem c7_skip_no_key (c : ChainData) (uR : Nat → ReqEvent UpsertBody)
    (lR : Nat → ReqEvent Bool) (ms : List String) (r : Registry)
    (cs : List ChainData) (h : chain_id_str c = "") :
    run_pipeline c uR lR ms = ⟨Outcome.SkippedNoKey, ms, 0, 0, 0, 0⟩
    ∧ process_chain_srv r c = (r, ⟨0, 0, 0, 0, 1⟩)
    ∧ (main_loop r (c :: cs)).1 = (main_loop r cs).1
    ∧ (main_loop r (c :: cs)).2 = addStats ⟨0, 0, 0, 0, 1⟩ (main_loop r cs).2 := by
  have hstep : process_chain_srv r c = (r, ⟨0, 0, 0, 0, 1⟩) := by
    simp [process_chain_srv, h]
  exact ⟨by simp [run_pipeline, h], hstep,
    by simp [main_loop, hstep], by simp [main_loop, hstep]⟩

def wNoKeyChain : ChainData := ⟨none, some "No Key Chain", none, none, none, none⟩

theorem c7_witness :
    chain_id_str wNoKeyChain = ""
    ∧ run_pipeline wNoKeyChain u200ok l200 ["m"]
        = ⟨Outcome.SkippedNoKey, ["m"], 0, 0, 0, 0⟩ :=
  ⟨rfl, (c7_skip_no_key wNoKeyChain u200ok l200 ["m"] wRegistry [] rfl).1⟩

/-- How the initial chain fetch can end (source lines 105-122): a
successful response with a chain list, or one of the caught
failures (ClientError, TimeoutError, any other exception), each of
which makes `fetch_chains_from_glacier` return an empty list. -/
inductive FetchOutcome where
  | success (chains : List ChainData)
  | clientError
  | timeoutError
  | otherError
deriving DecidableEq

def fetch_chains_from_glacier : FetchOutcome → List ChainData
  | FetchOutcome.success cs => cs
  | FetchOutcome.clientError => []
  | FetchOutcome.timeoutError => []
  | FetchOutcome.otherError => []

/-- `main` (source lines 280-306): fetch the chain list; if it is
empty, return before any registry work; otherwise run the per-record
loop over it. -/
def main_srv (fo : FetchOutcome) (r : Registry) : Registry × RunStats :=
  if (fetch_chains_from_glacier fo).isEmpty then (r, ⟨0, 0, 0, 0, 0⟩)
  else main_loop r (fetch_chains_from_glacier fo)

/-- Claim C9: if the initial chain fetch fails in any of the caught
ways, the run performs no synchronization at all: the registry is
untouched and zero upsert, link, or skip events happen. -/
theorem c9_fetch_failure_no_sync (fo : FetchOutcome) (r : Registry)
    (h : fo = FetchOutcome.clientError ∨ fo = FetchOutcome.timeoutError
         ∨ fo = FetchOutcome.otherError) :
    main_srv fo r = (r, ⟨0, 0, 0, 0, 0⟩) := by
  rcases h with rfl | rfl | rfl <;> rfl

theorem c9_witness :
    main_srv FetchOutcome.clientError wRegistry = (wRegistry, ⟨0, 0, 0, 0, 0⟩) :=
  c9_fetch_failure_no_sync FetchOutcome.clientError wRegistry (Or.inl rfl)
